import Mathlib

/-!
Verification of the Ikarus 3D product-recommendation frontend.

The repository is a React frontend: `RecommendationPage.tsx` (search and
AI-description handlers), `services/api.ts` (HTTP client wrapper) and
`types/index.ts` (data model).  The backend recommendation core (Embedding
Gateway, Similarity Index, Ranking and Filter Engine, Recommendation Service)
is described by the specification but has no implementation in the sources;
where a claim depends on it, the missing component is modelled from the
specification and the corresponding definition says so in its doc comment.

TypeScript `number` fields are modelled as `ℚ`; thrown JavaScript errors and
rejected promises are modelled as the `Except.error` case; `undefined` as
`Option.none`.
-/

namespace Ikarus

/-! ## JavaScript string semantics used by `handleSearch` -/

/-- Boolean test that `needle` occurs at the start of `hay`, on character lists. -/
def startsWithChars : List Char → List Char → Bool
  | [], _ => true
  | _ :: _, [] => false
  | a :: as, b :: bs => a == b && startsWithChars as bs

/-- Boolean test that `needle` occurs contiguously inside `hay`, as the JavaScript
string method `hay.includes(needle)` computes it. -/
def containsChars (needle : List Char) : List Char → Bool
  | [] => needle.isEmpty
  | b :: bs => startsWithChars needle (b :: bs) || containsChars needle bs

/-- JavaScript `hay.includes(needle)` on strings. -/
def jsIncludes (hay needle : String) : Bool :=
  containsChars needle.toList hay.toList

/-- Proposition that `needle` occurs contiguously inside `hay`. -/
def SubstringOf (needle hay : String) : Prop :=
  ∃ l r, hay.toList = l ++ needle.toList ++ r

/-- JavaScript `s.toLowerCase()`, modelled characterwise (this agrees with the
ASCII fragment of the JavaScript semantics). -/
def lowerStr (s : String) : String :=
  String.mk (s.toList.map Char.toLower)

/-- JavaScript test `!s.trim()`: the trimmed string is empty exactly when every
character of `s` is whitespace. -/
def isBlank (s : String) : Bool :=
  s.toList.all Char.isWhitespace

theorem startsWithChars_iff (n : List Char) :
    ∀ h : List Char, startsWithChars n h = true ↔ ∃ r, h = n ++ r := by
  induction n with
  | nil =>
    intro h
    simp only [startsWithChars, List.nil_append, true_iff]
    exact ⟨h, rfl⟩
  | cons a as ih =>
    intro h
    cases h with
    | nil =>
      simp [startsWithChars]
    | cons b bs =>
      simp only [startsWithChars, Bool.and_eq_true, beq_iff_eq, ih bs]
      constructor
      · rintro ⟨rfl, r, rfl⟩
        exact ⟨r, rfl⟩
      · rintro ⟨r, hr⟩
        cases hr
        exact ⟨rfl, r, rfl⟩

theorem containsChars_iff (n : List Char) :
    ∀ h : List Char, containsChars n h = true ↔ ∃ l r, h = l ++ n ++ r := by
  intro h
  induction h with
  | nil =>
    simp only [containsChars, List.isEmpty_iff]
    constructor
    · rintro rfl
      exact ⟨[], [], rfl⟩
    · rintro ⟨l, r, hr⟩
      have := hr.symm
      simp only [List.append_eq_nil] at this
      exact this.1.2
  | cons b bs ih =>
    simp only [containsChars, Bool.or_eq_true, startsWithChars_iff, ih]
    constructor
    · rintro (⟨r, hr⟩ | ⟨l, r, hr⟩)
      · exact ⟨[], r, by simp [hr]⟩
      · exact ⟨b :: l, r, by simp [hr]⟩
    · rintro ⟨l, r, hr⟩
      cases l with
      | nil =>
        exact Or.inl ⟨r, by simpa using hr⟩
      | cons c cl =>
        rw [List.cons_append, List.cons_append] at hr
        cases hr
        exact Or.inr ⟨cl, r, by simp⟩

theorem jsIncludes_iff (hay needle : String) :
    jsIncludes hay needle = true ↔ SubstringOf needle hay :=
  containsChars_iff needle.toList hay.toList

/-! ## Page-local data model of `RecommendationPage.tsx` -/

/-- Union `string | string[]` used by the `categories` field of the page-local
`Product` interface in `RecommendationPage.tsx`. -/
inductive StrOrList where
  | str (s : String)
  | strings (l : List String)
deriving DecidableEq

/-- Product record as declared by the page-local `Product` interface in
`RecommendationPage.tsx`; `material` and `ai_description` are optional there. -/
structure PageProduct where
  id : String
  title : String
  brand : String
  price : String
  description : String
  image : String
  categories : StrOrList
  material : Option String
  ai_description : Option String
deriving DecidableEq

/-- Filter predicate of `handleSearch` (lines 88-93 of `RecommendationPage.tsx`).
JavaScript evaluates the three disjuncts left to right and throws a `TypeError`
(modelled as `Except.error ()`) when `product.material` is `undefined` and the
title and description tests were both false. -/
def searchMatch (query : String) (p : PageProduct) : Except Unit Bool :=
  if jsIncludes (lowerStr p.title) (lowerStr query) then .ok true
  else if jsIncludes (lowerStr p.description) (lowerStr query) then .ok true
  else
    match p.material with
    | none => .error ()
    | some m => .ok (jsIncludes (lowerStr m) (lowerStr query))

/-- JavaScript `Array.prototype.filter` with a predicate that can throw: products
are tested left to right and a thrown error aborts the whole filter. -/
def filterExcept {α : Type} (pred : α → Except Unit Bool) : List α → Except Unit (List α)
  | [] => .ok []
  | x :: xs => do
    let b ← pred x
    let rest ← filterExcept pred xs
    pure (if b then x :: rest else rest)

/-- Model of `handleSearch` in `RecommendationPage.tsx`: the early `return` fires
when the query is blank after trimming (`!query.trim()`), giving `none` (no
upstream call, state untouched); otherwise the sample products are filtered by the
substring predicate, a thrown `TypeError` being the `Except.error` case. -/
def handleSearch (query : String) (allProducts : List PageProduct) :
    Option (Except Unit (List PageProduct)) :=
  if isBlank query then none
  else some (filterExcept (searchMatch query) allProducts)

/-- Total version of the `handleSearch` filter predicate; it agrees with
`searchMatch` on every product whose `material` field is present. -/
def searchMatchTotal (query : String) (p : PageProduct) : Bool :=
  jsIncludes (lowerStr p.title) (lowerStr query) ||
  jsIncludes (lowerStr p.description) (lowerStr query) ||
  jsIncludes (lowerStr (p.material.getD "")) (lowerStr query)

theorem filterExcept_searchMatch_eq (query : String) :
    ∀ products : List PageProduct, (∀ p ∈ products, p.material.isSome) →
      filterExcept (searchMatch query) products =
        .ok (products.filter (searchMatchTotal query)) := by
  intro products
  induction products with
  | nil => intro _; rfl
  | cons p ps ih =>
    intro hmat
    have hp : p.material.isSome := hmat p (by simp)
    have hps : ∀ q ∈ ps, q.material.isSome := fun q hq => hmat q (by simp [hq])
    obtain ⟨m, hm⟩ := Option.isSome_iff_exists.mp hp
    by_cases ht : jsIncludes (lowerStr p.title) (lowerStr query)
    · simp [filterExcept, searchMatch, searchMatchTotal, ht, ih hps, List.filter_cons]
      rfl
    · by_cases hd : jsIncludes (lowerStr p.description) (lowerStr query)
      · simp [filterExcept, searchMatch, searchMatchTotal, ht, hd, ih hps, List.filter_cons]
        rfl
      · simp only [filterExcept, searchMatch, searchMatchTotal, ht, hd, hm, ih hps,
          List.filter_cons, if_neg, Bool.false_or]
        rfl

/-- C1 (amended): for every query that is not blank after trimming and every product
list in which each product carries a `material` string, `handleSearch` is exactly
the client-side substring filter: it succeeds with precisely those products whose
lowercased title, description or material contains the lowercased query as a
contiguous substring. -/
theorem handleSearch_substring_filter (query : String) (products : List PageProduct)
    (hq : isBlank query = false) (hmat : ∀ p ∈ products, p.material.isSome) :
    handleSearch query products =
      some (.ok (products.filter (searchMatchTotal query))) ∧
    ∀ p : PageProduct, searchMatchTotal query p = true ↔
      (SubstringOf (lowerStr query) (lowerStr p.title) ∨
       SubstringOf (lowerStr query) (lowerStr p.description) ∨
       SubstringOf (lowerStr query) (lowerStr (p.material.getD ""))) := by
  constructor
  · rw [handleSearch, if_neg (by simp [hq]), filterExcept_searchMatch_eq query products hmat]
  · intro p
    simp only [searchMatchTotal, Bool.or_eq_true, jsIncludes_iff, or_assoc]

/-- Sample product used in concrete evaluations of the page handlers. -/
def demoProduct : PageProduct :=
  { id := "p1", title := "Red Sofa", brand := "Acme", price := "100",
    description := "a velvet couch", image := "",
    categories := .strings ["sofas"],
    material := some "Wood", ai_description := none }

theorem handleSearch_substring_filter_witness :
    handleSearch "sofa" [demoProduct] =
      some (.ok ([demoProduct].filter (searchMatchTotal "sofa"))) ∧
    ∀ p : PageProduct, searchMatchTotal "sofa" p = true ↔
      (SubstringOf (lowerStr "sofa") (lowerStr p.title) ∨
       SubstringOf (lowerStr "sofa") (lowerStr p.description) ∨
       SubstringOf (lowerStr "sofa") (lowerStr (p.material.getD ""))) :=
  handleSearch_substring_filter "sofa" [demoProduct] (by decide) (by decide)

/-- C1 (counterexample): the one-character query " " is a non-empty string and does
occur as a substring of the title "Red Sofa", so the claim as stated requires the
search to return the product; the code instead hits the early `return` because the
query is blank after trimming, and no filtered result is produced at all. -/
theorem handleSearch_blank_query_counterexample :
    (" " : String) ≠ "" ∧
    searchMatchTotal " " demoProduct = true ∧
    handleSearch " " [demoProduct] = none ∧
    ∀ res : Except Unit (List PageProduct), handleSearch " " [demoProduct] ≠ some res := by
  have h3 : handleSearch " " [demoProduct] = none := rfl
  refine ⟨by decide, by decide, h3, ?_⟩
  intro res
  rw [h3]
  exact fun h => Option.noConfusion h

/-! ## The AI-description handler of `RecommendationPage.tsx` -/

/-- JavaScript truthiness of an optional string: `undefined` and the empty string
are falsy. -/
def truthyStr : Option String → Bool
  | none => false
  | some s => s != ""

/-- Model of `generateAIDescription` in `RecommendationPage.tsx` (lines 105-137).
The state is the `recommendations` list; the second result component counts
upstream generation calls.  The early `return` fires when `product.ai_description`
is truthy; otherwise the API is called once and, on success, every stored product
with the matching id receives the generated text (on a rejected call the state is
left unchanged and the error is only logged). -/
def generateAIDescription (api : Except Unit String) (product : PageProduct)
    (recs : List PageProduct) : List PageProduct × Nat :=
  if truthyStr product.ai_description then (recs, 0)
  else
    match api with
    | .ok text =>
      (recs.map fun p =>
        if p.id == product.id then { p with ai_description := some text } else p, 1)
    | .error _ => (recs, 1)

/-- C8 (amended): invoking the description handler for a product whose already
present description is non-empty performs no upstream generation call and leaves
the stored products unchanged. -/
theorem generateAIDescription_cached_noop (api : Except Unit String)
    (product : PageProduct) (recs : List PageProduct) (d : String)
    (hgen : product.ai_description = some d) (hne : d ≠ "") :
    generateAIDescription api product recs = (recs, 0) := by
  have htr : truthyStr product.ai_description = true := by
    simp [truthyStr, hgen, hne]
  simp [generateAIDescription, htr]

/-- Product with an already generated but empty description, used to exercise the
JavaScript truthiness test of the handler. -/
def emptyDescProduct : PageProduct :=
  { demoProduct with id := "p2", ai_description := some "" }

theorem generateAIDescription_cached_noop_witness :
    generateAIDescription (.ok "fresh text") { demoProduct with ai_description := some "old" }
      [{ demoProduct with ai_description := some "old" }] =
      ([{ demoProduct with ai_description := some "old" }], 0) :=
  generateAIDescription_cached_noop (.ok "fresh text") _ _ "old" rfl (by decide)

/-- C8 (counterexample): a product whose description has already been generated as
the empty string is falsy in JavaScript, so the handler calls upstream again and
rewrites the stored product, contradicting the claimed no-op. -/
theorem generateAIDescription_empty_string_counterexample :
    emptyDescProduct.ai_description = some "" ∧
    (generateAIDescription (.ok "text") emptyDescProduct [emptyDescProduct]).2 = 1 ∧
    (generateAIDescription (.ok "text") emptyDescProduct [emptyDescProduct]).1 ≠
      [emptyDescProduct] := by
  refine ⟨rfl, rfl, ?_⟩
  intro h
  have := congrArg (fun l => (l.headD emptyDescProduct).ai_description) h
  simp [generateAIDescription, truthyStr, emptyDescProduct] at this

/-! ## Data model of `types/index.ts` and the API client of `services/api.ts` -/

/-- Product record from `src/frontend/src/types/index.ts`. -/
structure Product where
  id : String
  title : String
  brand : String
  price : String
  description : String
  images : List String
  categories : List String
  material : String
  color : String
  country_of_origin : String
  manufacturer : String
  package_dimensions : String
  uniq_id : String
deriving DecidableEq

/-- RecommendationResponse from `types/index.ts`: the `recommendations` field is a
plain `Product[]` — there is no per-entry similarity-score field.  TypeScript
`number` is modelled as `ℚ`. -/
structure RecommendationResponse where
  recommendations : List Product
  query : String
  total_found : ℚ
  processing_time : ℚ
deriving DecidableEq

/-- Modelled from the spec: the Recommendation Result exactly as section 3 words
it — an ordered sequence of (Product, similarity score) pairs plus the original
query, the total-candidate count and the processing latency.  Used to compare the
worded data model with the `RecommendationResponse` the code declares. -/
structure SpecRecommendationResult where
  entries : List (Product × ℚ)
  query : String
  total_found : ℚ
  processing_time : ℚ
deriving DecidableEq

/-- Forgetting the per-entry similarity scores turns the spec-worded Recommendation
Result into the response type the code declares. -/
def eraseScores (s : SpecRecommendationResult) : RecommendationResponse :=
  { recommendations := s.entries.map Prod.fst
    query := s.query
    total_found := s.total_found
    processing_time := s.processing_time }

/-- Product value used in concrete evaluations of the API models. -/
def demoTsProduct : Product :=
  { id := "p1", title := "Red Sofa", brand := "Acme", price := "100",
    description := "a velvet couch", images := [], categories := ["sofas"],
    material := "Wood", color := "red", country_of_origin := "SE",
    manufacturer := "Acme", package_dimensions := "1x1x1", uniq_id := "u1" }

/-- C7 (counterexample): two spec-worded Recommendation Results that differ only in
the similarity score of their single entry are distinct, yet they erase to the same
`RecommendationResponse`: the response type declared by the code cannot carry
per-entry similarity scores, so a Recommendation Result does not consist of
(Product, score) pairs. -/
theorem recommendationResponse_scores_counterexample :
    (⟨[(demoTsProduct, 1)], "sofa", 1, 5⟩ : SpecRecommendationResult) ≠
      (⟨[(demoTsProduct, 2)], "sofa", 1, 5⟩ : SpecRecommendationResult) ∧
    eraseScores ⟨[(demoTsProduct, 1)], "sofa", 1, 5⟩ =
      eraseScores ⟨[(demoTsProduct, 2)], "sofa", 1, 5⟩ := by
  refine ⟨?_, rfl⟩
  intro h
  have := congrArg (fun s => s.entries.map Prod.snd) h
  simp at this

/-- C7 (amended): a RecommendationResponse consists of exactly the ordered product
list (with no similarity scores), the original query, the total_found count and the
processing_time latency: any two responses agreeing on these four components are
the same response. -/
theorem recommendationResponse_components (r s : RecommendationResponse)
    (h1 : r.recommendations = s.recommendations) (h2 : r.query = s.query)
    (h3 : r.total_found = s.total_found) (h4 : r.processing_time = s.processing_time) :
    r = s := by
  cases r
  cases s
  simp_all

theorem recommendationResponse_components_witness :
    (⟨[demoTsProduct], "sofa", 1, 5⟩ : RecommendationResponse) =
      ⟨[demoTsProduct], "sofa", 1, 5⟩ :=
  recommendationResponse_components _ _ rfl rfl rfl rfl

/-- ApiResponse wrapper from `types/index.ts`. -/
structure ApiResponse (α : Type) where
  success : Bool
  data : α
  message : Option String
  error : Option String

/-- Model of `ApiService.getRecommendations` in `services/api.ts` (lines 124-137):
on a resolved POST it returns the `data` field of the wrapper; on any rejection the
`catch` block throws `Error("Failed to fetch recommendations")` — it never falls
back to returning data. -/
def getRecommendations (post : Except Unit (ApiResponse RecommendationResponse)) :
    Except String RecommendationResponse :=
  match post with
  | .ok resp => .ok resp.data
  | .error _ => .error "Failed to fetch recommendations"

/-- C9: when the upstream POST fails, `getRecommendations` surfaces a
distinguishable failure — the thrown error — and never synthesizes a result: no
`RecommendationResponse` (empty or otherwise) is returned on a failed upstream
call. -/
theorem getRecommendations_throws_on_failure
    (post : Except Unit (ApiResponse RecommendationResponse))
    (hfail : post = .error ()) :
    getRecommendations post = .error "Failed to fetch recommendations" ∧
    ∀ r : RecommendationResponse, getRecommendations post ≠ .ok r := by
  subst hfail
  exact ⟨rfl, fun r h => Except.noConfusion h⟩

theorem getRecommendations_throws_on_failure_witness :
    getRecommendations (.error ()) = .error "Failed to fetch recommendations" ∧
    ∀ r : RecommendationResponse, getRecommendations (.error ()) ≠ .ok r :=
  getRecommendations_throws_on_failure (.error ()) rfl

/-- Axios-style HTTP response for the health check; with the default
`validateStatus`, a rejected promise (network failure or non-2xx status) is the
`Except.error` case and a resolved one carries the status code. -/
structure HttpResponse where
  status : Nat
deriving DecidableEq

/-- Model of `ApiService.healthCheck` in `services/api.ts` (lines 52-60): it
resolves to `response.status === 200`, and the `catch` block turns any thrown
error into `false`; the function is total into `Bool` by construction. -/
def healthCheck (resp : Except Unit HttpResponse) : Bool :=
  match resp with
  | .ok r => r.status == 200
  | .error _ => false

/-- C10: `healthCheck` always returns a boolean — `true` exactly when the request
resolved with HTTP status 200, and `false` on any other status or thrown error. -/
theorem healthCheck_total_iff_status200 (resp : Except Unit HttpResponse) :
    (healthCheck resp = true ↔ ∃ r : HttpResponse, resp = .ok r ∧ r.status = 200) ∧
    (healthCheck resp = true ∨ healthCheck resp = false) := by
  refine ⟨?_, ?_⟩
  · cases resp with
    | ok r => simp [healthCheck]
    | error e => simp [healthCheck]
  · cases h : healthCheck resp
    · exact Or.inr rfl
    · exact Or.inl rfl

/-!
## Spec-modelled retrieval core

The Similarity Index, Ranking and Filter Engine and Recommendation Service of
sections 4.2 to 4.4 of the specification have no implementation under `src`
(the planning document only calls for them and the frontend assumes them), so
they are modelled here from the specification text.  The embedding function and
the similarity function are black-box parameters, as the specification treats
the external encoders and the vector store.
-/

/-- Modelled from the spec: a product as stored in the missing Similarity Index —
id, filterable metadata (categories, brand, material, numeric price) and the
embedding vector (spec sections 3 and 4.2). -/
structure IndexedProduct where
  pid : String
  categories : List String
  brand : String
  material : String
  price : ℚ
  vec : List ℚ
deriving DecidableEq

/-- Modelled from the spec: the result ordering of the Similarity Index
(spec 4.2) — descending similarity score, ties broken by ascending product id. -/
def candLE (a b : IndexedProduct × ℚ) : Bool :=
  decide (b.2 < a.2) || (a.2 == b.2 && decide (a.1.pid ≤ b.1.pid))

theorem candLE_trans (a b c : IndexedProduct × ℚ)
    (hab : candLE a b = true) (hbc : candLE b c = true) : candLE a c = true := by
  simp only [candLE, Bool.or_eq_true, Bool.and_eq_true, decide_eq_true_eq,
    beq_iff_eq] at hab hbc ⊢
  rcases hab with hab | ⟨hab, hab2⟩
  · rcases hbc with hbc | ⟨hbc, _⟩
    · exact Or.inl (lt_trans hbc hab)
    · exact Or.inl (hbc ▸ hab)
  · rcases hbc with hbc | ⟨hbc, hbc2⟩
    · exact Or.inl (hab ▸ hbc)
    · exact Or.inr ⟨hab.trans hbc, le_trans hab2 hbc2⟩

theorem candLE_total (a b : IndexedProduct × ℚ) : (candLE a b || candLE b a) = true := by
  simp only [candLE, Bool.or_eq_true, Bool.and_eq_true, decide_eq_true_eq, beq_iff_eq]
  rcases lt_trichotomy a.2 b.2 with h | h | h
  · exact Or.inr (Or.inl h)
  · rcases le_total a.1.pid b.1.pid with hp | hp
    · exact Or.inl (Or.inr ⟨h, hp⟩)
    · exact Or.inr (Or.inr ⟨h.symm, hp⟩)
  · exact Or.inl (Or.inl h)

theorem candLE_score_le (a b : IndexedProduct × ℚ) (h : candLE a b = true) :
    b.2 ≤ a.2 := by
  simp only [candLE, Bool.or_eq_true, Bool.and_eq_true, decide_eq_true_eq,
    beq_iff_eq] at h
  rcases h with h | ⟨h, _⟩
  · exact le_of_lt h
  · exact le_of_eq h.symm

theorem candLE_tiebreak (a b : IndexedProduct × ℚ) (h : candLE a b = true) :
    b.2 < a.2 ∨ (a.2 = b.2 ∧ a.1.pid ≤ b.1.pid) := by
  simpa only [candLE, Bool.or_eq_true, Bool.and_eq_true, decide_eq_true_eq,
    beq_iff_eq] using h

/-- Modelled from the spec: the top-k query of the Similarity Index (spec 4.2) —
score every stored entry against the query vector with the black-box similarity
function `sim`, order by descending score with ties by ascending id, and return
the first `k` entries. -/
def queryIndex (sim : List ℚ → List ℚ → ℚ) (index : List IndexedProduct)
    (qv : List ℚ) (k : Nat) : List (IndexedProduct × ℚ) :=
  ((index.map fun e => (e, sim qv e.vec)).mergeSort candLE).take k

theorem queryIndex_pairwise (sim : List ℚ → List ℚ → ℚ) (index : List IndexedProduct)
    (qv : List ℚ) (k : Nat) :
    (queryIndex sim index qv k).Pairwise fun a b => candLE a b = true :=
  List.Pairwise.sublist (List.take_sublist k _)
    (List.sorted_mergeSort candLE_trans candLE_total _)

/-- Filter Criteria (spec section 3, mirroring the `filters` field of
`RecommendationRequest` in `types/index.ts`): optional category set, price
interval, brand set and material set, applied conjunctively. -/
structure FilterCriteria where
  categories : Option (List String)
  price_min : Option ℚ
  price_max : Option ℚ
  brands : Option (List String)
  materials : Option (List String)
deriving DecidableEq

/-- Criteria with no constraint set. -/
def noFilter : FilterCriteria :=
  ⟨none, none, none, none, none⟩

/-- Modelled from the spec: the conjunctive predicate of the Ranking and Filter
Engine (spec 4.3) — category intersection non-empty when categories are given,
price within the interval, brand and material set membership. -/
def matchesFilter (f : FilterCriteria) (p : IndexedProduct) : Bool :=
  (match f.categories with
   | none => true
   | some cs => p.categories.any fun c => cs.contains c) &&
  (match f.price_min with
   | none => true
   | some lo => decide (lo ≤ p.price)) &&
  (match f.price_max with
   | none => true
   | some hi => decide (p.price ≤ hi)) &&
  (match f.brands with
   | none => true
   | some bs => bs.contains p.brand) &&
  (match f.materials with
   | none => true
   | some ms => ms.contains p.material)

/-- Modelled from the spec: the Ranking and Filter Engine (spec 4.3) — drop the
candidates failing the conjunctive predicate; no reordering, no relaxation. -/
def rankFilter (f : FilterCriteria) (cands : List (IndexedProduct × ℚ)) :
    List (IndexedProduct × ℚ) :=
  cands.filter fun c => matchesFilter f c.1

/-- Modelled from the spec: the Recommendation Result assembled by the
Recommendation Service (spec sections 3 and 4.4), over indexed products. -/
structure RecResult where
  entries : List (IndexedProduct × ℚ)
  query : String
  totalFound : Nat
  latency : ℚ
deriving DecidableEq

/-- Error taxonomy of spec section 7, restricted to the cases reachable from
`recommend`. -/
inductive RecError where
  | invalidInput
  | upstreamUnavailable
deriving DecidableEq

/-- Characterwise whitespace collapsing; the flag records whether the previous
kept character position ended in whitespace. -/
def collapseWSAux : Bool → List Char → List Char
  | _, [] => []
  | prevWS, c :: cs =>
    if c.isWhitespace then
      if prevWS then collapseWSAux true cs
      else ' ' :: collapseWSAux true cs
    else c :: collapseWSAux false cs

/-- Modelled from the spec: input normalization of the Embedding Gateway
(spec 4.1) — lowercase and collapse whitespace. -/
def normalizeText (s : String) : String :=
  String.mk (collapseWSAux true (s.toList.map Char.toLower))

/-- Modelled from the spec: the Recommendation Service entry point (spec 4.4) —
validate the input, embed the normalized query through the black-box gateway
(`none` models an unavailable upstream delegate), retrieve `k` times the
oversample factor candidates from the Similarity Index, apply the Ranking and
Filter Engine, truncate to `k`, and record the request latency. -/
def recommend (embed : String → Option (List ℚ)) (sim : List ℚ → List ℚ → ℚ)
    (index : List IndexedProduct) (ov : Nat) (query : String) (k : Nat)
    (f : FilterCriteria) (latency : ℚ) : Except RecError RecResult :=
  if isBlank query then .error .invalidInput
  else
    match embed (normalizeText query) with
    | none => .error .upstreamUnavailable
    | some qv =>
      let kept := rankFilter f (queryIndex sim index qv (k * ov))
      .ok ⟨kept.take k, query, kept.length, latency⟩

theorem recommend_ok_inv
    (embed : String → Option (List ℚ)) (sim : List ℚ → List ℚ → ℚ)
    (index : List IndexedProduct) (ov : Nat) (query : String) (k : Nat)
    (f : FilterCriteria) (latency : ℚ) (r : RecResult)
    (h : recommend embed sim index ov query k f latency = .ok r) :
    ∃ qv, embed (normalizeText query) = some qv ∧
      r = ⟨(rankFilter f (queryIndex sim index qv (k * ov))).take k, query,
           (rankFilter f (queryIndex sim index qv (k * ov))).length, latency⟩ := by
  unfold recommend at h
  split at h
  · exact Except.noConfusion h
  · split at h
    · exact Except.noConfusion h
    · rename_i qv hqv
      injection h with h2
      exact ⟨qv, hqv, h2.symm⟩

/-- C2: every entry of a successfully produced Recommendation Result satisfies the
Filter Criteria used to produce it, and the similarity scores are monotonically
non-increasing along the ordered entry sequence. -/
theorem recommend_filter_sound_scores_monotone
    (embed : String → Option (List ℚ)) (sim : List ℚ → List ℚ → ℚ)
    (index : List IndexedProduct) (ov : Nat) (query : String) (k : Nat)
    (f : FilterCriteria) (latency : ℚ) (r : RecResult)
    (h : recommend embed sim index ov query k f latency = .ok r) :
    (∀ e ∈ r.entries, matchesFilter f e.1 = true) ∧
    r.entries.Pairwise fun a b => b.2 ≤ a.2 := by
  obtain ⟨qv, hqv, rfl⟩ := recommend_ok_inv _ _ _ _ _ _ _ _ _ h
  constructor
  · intro e he
    have he2 : e ∈ rankFilter f (queryIndex sim index qv (k * ov)) :=
      List.take_subset _ _ he
    rw [rankFilter, List.mem_filter] at he2
    exact he2.2
  · have hf : (rankFilter f (queryIndex sim index qv (k * ov))).Pairwise
        fun a b => candLE a b = true :=
      (queryIndex_pairwise sim index qv (k * ov)).filter _
    have ht := List.Pairwise.sublist (List.take_sublist k _) hf
    exact ht.imp fun hab => candLE_score_le _ _ hab

/-- Indexed product used in concrete evaluations of the modelled core. -/
def prodA : IndexedProduct :=
  ⟨"a1", ["chairs"], "Acme", "Wood", 10, [1]⟩

theorem recommend_filter_sound_scores_monotone_witness :
    (∀ e ∈ (RecResult.mk [(prodA, 1)] "sofa" 1 0).entries,
        matchesFilter noFilter e.1 = true) ∧
    (RecResult.mk [(prodA, 1)] "sofa" 1 0).entries.Pairwise fun a b => b.2 ≤ a.2 :=
  recommend_filter_sound_scores_monotone (fun _ => some [1]) (fun _ _ => 1)
    [prodA] 1 "sofa" 2 noFilter 0 ⟨[(prodA, 1)], "sofa", 1, 0⟩
    (by simp [recommend, queryIndex, rankFilter, noFilter, matchesFilter,
      show isBlank "sofa" = false from rfl, List.mergeSort_singleton])

/-- C3: the recommendation operation is deterministic — identical arguments against
an unchanged index give identical ordered results — and, the index holding no
duplicate ids, ties on equal scores are broken by strictly ascending product id. -/
theorem recommend_deterministic_tiebreak
    (embed : String → Option (List ℚ)) (sim : List ℚ → List ℚ → ℚ)
    (index : List IndexedProduct) (ov : Nat) (query : String) (k : Nat)
    (f : FilterCriteria) (latency : ℚ) (r : RecResult)
    (hnodup : (index.map IndexedProduct.pid).Nodup)
    (h : recommend embed sim index ov query k f latency = .ok r) :
    recommend embed sim index ov query k f latency =
      recommend embed sim index ov query k f latency ∧
    r.entries.Pairwise fun a b => b.2 < a.2 ∨ (a.2 = b.2 ∧ a.1.pid < b.1.pid) := by
  refine ⟨rfl, ?_⟩
  obtain ⟨qv, hqv, rfl⟩ := recommend_ok_inv _ _ _ _ _ _ _ _ _ h
  have hle : ((rankFilter f (queryIndex sim index qv (k * ov))).take k).Pairwise
      fun a b => candLE a b = true :=
    List.Pairwise.sublist (List.take_sublist k _)
      ((queryIndex_pairwise sim index qv (k * ov)).filter _)
  have hsub : List.Sublist ((rankFilter f (queryIndex sim index qv (k * ov))).take k)
      ((index.map fun e => (e, sim qv e.vec)).mergeSort candLE) :=
    ((List.take_sublist _ _).trans (List.filter_sublist _)).trans (List.take_sublist _ _)
  have hnd0 : ((index.map fun e => (e, sim qv e.vec)).map fun c => c.1.pid).Nodup := by
    rw [List.map_map]
    exact hnodup
  have hnd1 : (((index.map fun e => (e, sim qv e.vec)).mergeSort candLE).map
      fun c => c.1.pid).Nodup :=
    ((List.mergeSort_perm _ candLE).map fun c => c.1.pid).symm.nodup hnd0
  have hnd : (((rankFilter f (queryIndex sim index qv (k * ov))).take k).map
      fun c => c.1.pid).Nodup :=
    List.Nodup.sublist (hsub.map _) hnd1
  have hne : ((rankFilter f (queryIndex sim index qv (k * ov))).take k).Pairwise
      fun a b => a.1.pid ≠ b.1.pid :=
    List.pairwise_map.mp hnd
  refine (hle.and hne).imp ?_
  intro a b hab
  rcases candLE_tiebreak a b hab.1 with hlt | ⟨heq, hple⟩
  · exact Or.inl hlt
  · exact Or.inr ⟨heq, lt_of_le_of_ne hple hab.2⟩

theorem recommend_deterministic_tiebreak_witness :
    recommend (fun _ => some [1]) (fun _ _ => 1) [prodA] 1 "chair" 2 noFilter 0 =
      recommend (fun _ => some [1]) (fun _ _ => 1) [prodA] 1 "chair" 2 noFilter 0 ∧
    (RecResult.mk [(prodA, 1)] "chair" 1 0).entries.Pairwise
      fun a b => b.2 < a.2 ∨ (a.2 = b.2 ∧ a.1.pid < b.1.pid) :=
  recommend_deterministic_tiebreak (fun _ => some [1]) (fun _ _ => 1)
    [prodA] 1 "chair" 2 noFilter 0 ⟨[(prodA, 1)], "chair", 1, 0⟩
    (by simp)
    (by simp [recommend, queryIndex, rankFilter, noFilter, matchesFilter,
      show isBlank "chair" = false from rfl, List.mergeSort_singleton])

/-- C4: the Ranking and Filter Engine only subtracts: its output is a subsequence
of the candidate list in the input order, a candidate failing the criteria never
reappears in the output, and when fewer candidates match than the requested size
the truncation returns them all — fewer results, with no filter relaxation. -/
theorem rankFilter_subtracts_never_relaxes
    (f : FilterCriteria) (cands : List (IndexedProduct × ℚ)) (k : Nat) :
    List.Sublist (rankFilter f cands) cands ∧
    (∀ c ∈ cands, matchesFilter f c.1 = false → c ∉ rankFilter f cands) ∧
    ((rankFilter f cands).length < k →
      (rankFilter f cands).take k = rankFilter f cands) := by
  refine ⟨List.filter_sublist _, ?_, ?_⟩
  · intro c _ hc hmem
    have hmt := List.of_mem_filter hmem
    rw [hc] at hmt
    exact Bool.noConfusion hmt
  · intro hlt
    exact List.take_of_length_le (le_of_lt hlt)

/-- Criteria whose brand set is empty, rejecting every product. -/
def filterB : FilterCriteria :=
  ⟨none, none, none, some [], none⟩

theorem rankFilter_subtracts_never_relaxes_witness :
    List.Sublist (rankFilter filterB [(prodA, 1)]) [(prodA, 1)] ∧
    (prodA, (1 : ℚ)) ∉ rankFilter filterB [(prodA, 1)] ∧
    (rankFilter filterB [(prodA, 1)]).take 5 = rankFilter filterB [(prodA, 1)] := by
  obtain ⟨h1, h2, h3⟩ := rankFilter_subtracts_never_relaxes filterB [(prodA, 1)] 5
  exact ⟨h1, h2 (prodA, 1) (by simp) (by decide), h3 (by decide)⟩

/-- C5: a query that is empty after trimming is rejected with the InvalidInput
error, reported directly to the caller, and no upstream stage is consulted — the
outcome does not depend on the embedding gateway, the similarity function or the
index contents. -/
theorem recommend_blank_invalid_input
    (embed : String → Option (List ℚ)) (sim : List ℚ → List ℚ → ℚ)
    (index : List IndexedProduct) (ov : Nat) (query : String) (k : Nat)
    (f : FilterCriteria) (latency : ℚ) (hq : isBlank query = true) :
    recommend embed sim index ov query k f latency = .error .invalidInput ∧
    ∀ (embed2 : String → Option (List ℚ)) (sim2 : List ℚ → List ℚ → ℚ)
      (index2 : List IndexedProduct),
      recommend embed2 sim2 index2 ov query k f latency =
        recommend embed sim index ov query k f latency := by
  constructor
  · simp [recommend, hq]
  · intro embed2 sim2 index2
    simp [recommend, hq]

theorem recommend_blank_invalid_input_witness :
    recommend (fun _ => some [1]) (fun _ _ => 1) [prodA] 1 "  " 2 noFilter 0 =
      .error .invalidInput ∧
    ∀ (embed2 : String → Option (List ℚ)) (sim2 : List ℚ → List ℚ → ℚ)
      (index2 : List IndexedProduct),
      recommend embed2 sim2 index2 1 "  " 2 noFilter 0 =
        recommend (fun _ => some [1]) (fun _ _ => 1) [prodA] 1 "  " 2 noFilter 0 :=
  recommend_blank_invalid_input (fun _ => some [1]) (fun _ _ => 1) [prodA] 1 "  " 2
    noFilter 0 (by decide)

/-- C6: top-k boundary behaviour of the modelled Similarity Index and
Recommendation Service — a `k` at least the index size returns all stored entries
without error, `k = 0` returns the empty list rather than an error, and Filter
Criteria rejecting every stored product yield a successful result with no entries
and a total-found count of 0. -/
theorem topk_boundary :
    (∀ (sim : List ℚ → List ℚ → ℚ) (index : List IndexedProduct) (qv : List ℚ)
       (k : Nat), index.length ≤ k →
        (queryIndex sim index qv k).length = index.length ∧
        ∀ e ∈ index, (e, sim qv e.vec) ∈ queryIndex sim index qv k) ∧
    (∀ (sim : List ℚ → List ℚ → ℚ) (index : List IndexedProduct) (qv : List ℚ),
      queryIndex sim index qv 0 = []) ∧
    (∀ (embed : String → Option (List ℚ)) (sim : List ℚ → List ℚ → ℚ)
       (index : List IndexedProduct) (ov : Nat) (query : String) (k : Nat)
       (f : FilterCriteria) (latency : ℚ) (r : RecResult),
      (∀ p ∈ index, matchesFilter f p = false) →
      recommend embed sim index ov query k f latency = .ok r →
      r.entries = [] ∧ r.totalFound = 0) := by
  refine ⟨?_, ?_, ?_⟩
  · intro sim index qv k hk
    have htake : queryIndex sim index qv k =
        (index.map fun e => (e, sim qv e.vec)).mergeSort candLE :=
      List.take_of_length_le (by simpa using hk)
    constructor
    · rw [htake]
      simp
    · intro e he
      rw [htake, List.mem_mergeSort]
      exact List.mem_map_of_mem _ he
  · intro sim index qv
    simp [queryIndex]
  · intro embed sim index ov query k f latency r hf h
    obtain ⟨qv, hqv, rfl⟩ := recommend_ok_inv _ _ _ _ _ _ _ _ _ h
    have hnil : rankFilter f (queryIndex sim index qv (k * ov)) = [] := by
      rw [rankFilter, List.filter_eq_nil_iff]
      intro c hc
      have hc2 : c ∈ (index.map fun e => (e, sim qv e.vec)) := by
        have := List.take_subset _ _ hc
        rwa [List.mem_mergeSort] at this
      obtain ⟨e, he, rfl⟩ := List.mem_map.mp hc2
      simp [hf e he]
    simp [hnil]

theorem topk_boundary_witness :
    ((queryIndex (fun _ _ => 1) [prodA] [1] 5).length = 1 ∧
      ∀ e ∈ [prodA], (e, (fun _ _ => (1 : ℚ)) [1] e.vec) ∈
        queryIndex (fun _ _ => 1) [prodA] [1] 5) ∧
    queryIndex (fun _ _ => 1) [prodA] [1] 0 = [] ∧
    ((RecResult.mk [] "desk" 0 0).entries = [] ∧
      (RecResult.mk [] "desk" 0 0).totalFound = 0) := by
  refine ⟨topk_boundary.1 (fun _ _ => 1) [prodA] [1] 5 (by decide),
    topk_boundary.2.1 (fun _ _ => 1) [prodA] [1], ?_⟩
  exact topk_boundary.2.2 (fun _ => some [1]) (fun _ _ => 1) [prodA] 1 "desk" 3
    filterB 0 ⟨[], "desk", 0, 0⟩ (by decide)
    (by simp [recommend, queryIndex, rankFilter,
      show matchesFilter filterB prodA = false from by decide,
      show isBlank "desk" = false from rfl, List.mergeSort_singleton])

end Ikarus
